import Mathlib

/-!
Shallow embedding of the whale-alert bot's core pipeline
(`config.py`, `whale_detector.py`, `exchange_monitor.py`,
`crypto_monitor.py`, `main.py`).

Python floats are modelled as `ℚ` (the claims concern comparisons and
products, not rounding), millisecond timestamps as `ℤ`, and Python
strings as `String`.  A Python `set` of strings is modelled as the
duplicate-free list of its elements in insertion order, together with an
explicit enumeration function `enum : List String → List String`
standing for CPython's unspecified `list(set)` iteration order (CPython
iterates a set in hash-table order, which is not insertion order; any
length-preserving enumeration is a sound model of it).
-/

/-- Python `str.replace(pat, repl)` on character lists: replaces every
non-overlapping occurrence of `pat` left to right.  `matchesAt pat l`
checks whether `pat` is an initial segment of `l`. -/
def matchesAt : List Char → List Char → Bool
  | [], _ => true
  | _ :: _, [] => false
  | p :: ps, c :: cs => p == c && matchesAt ps cs

/-- Core of Python `str.replace` (for a non-empty pattern), structurally
recursive on a fuel argument so that it reduces in the kernel; each step
consumes at least one character, so `fuel = l.length` suffices. -/
def pyReplaceAux (pat repl : List Char) : ℕ → List Char → List Char
  | _, [] => []
  | 0, l => l
  | fuel + 1, c :: rest =>
    if pat ≠ [] ∧ matchesAt pat (c :: rest) then
      repl ++ pyReplaceAux pat repl fuel (List.drop (pat.length - 1) rest)
    else
      c :: pyReplaceAux pat repl fuel rest

/-- Python `symbol.replace(pat, repl)` (replaces ALL occurrences, not
just a suffix). -/
def pyStrReplace (s pat repl : String) : String :=
  ⟨pyReplaceAux pat.data repl.data s.data.length s.data⟩

/-- Multiplication of rationals, written so that it evaluates inside the
kernel (Batteries marks `Rat.mul` `@[irreducible]`, which blocks
`decide` on concrete runs).  `ratMul_eq_mul` below proves it equal to
`(· * ·)`; the detector's `usd_value = qty * price` is embedded with
this function. -/
def ratMul (a b : ℚ) : ℚ := mkRat (a.num * b.num) (a.den * b.den)

/-- `config.py`: the configuration fields the core pipeline reads.
`WHALE_THRESHOLDS` is the parsed threshold table (base symbol → USD). -/
structure Config where
  WHALE_THRESHOLDS : List (String × ℚ)
  DEFAULT_WHALE_THRESHOLD : ℚ
  MAX_RETRIES : ℕ
  RETRY_DELAY : ℚ
  MONITORED_SYMBOLS : List String

/-- `Config.get_whale_threshold`: strips every occurrence of `"USDT"`
and then of `"USDC"` from the symbol (Python `str.replace` replaces all
occurrences) and looks the result up in the threshold table, falling
back to the default threshold. -/
def getWhaleThreshold (cfg : Config) (symbol : String) : ℚ :=
  let base := pyStrReplace (pyStrReplace symbol "USDT" "") "USDC" ""
  (cfg.WHALE_THRESHOLDS.lookup base).getD cfg.DEFAULT_WHALE_THRESHOLD

/-- The canonical trade record built by the source adapters
(`exchange_monitor.py` / `crypto_monitor.py`): keys `symbol`, `price`,
`qty`, `time`, `side`, `trade_id`, `exchange` of the Python dict. -/
structure Trade where
  symbol : String
  price : ℚ
  qty : ℚ
  time : ℤ
  side : String
  trade_id : String
  exchange : String
  deriving DecidableEq

/-- The identity key used by `WhaleDetector._is_duplicate_alert` and
`_record_alert`: the trade's `trade_id` when non-empty, else the
composite `f"{symbol}_{price}_{qty}_{timestamp}"`. -/
def tradeKey (symbol : String) (t : Trade) : String :=
  if t.trade_id = "" then
    symbol ++ "_" ++ toString t.price ++ "_" ++ toString t.qty ++ "_" ++ toString t.time
  else t.trade_id

/-- `WhaleDetector` mutable state: `recent_alerts`, a per-symbol set of
alerted keys.  Each set is modelled as its insertion-ordered
duplicate-free element list; symbols never alerted map to `[]`
(matching `dict.get(symbol, set())`). -/
structure DetectorState where
  recent_alerts : String → List String

/-- Detector state at startup: `self.recent_alerts = {}`. -/
def initState : DetectorState := ⟨fun _ => []⟩

/-- `WhaleDetector._is_whale_trade`: rejects non-positive quantity or
price, then classifies as whale iff `qty * price >= threshold`.  (The
Python `float(...)` conversions cannot fail here because the model's
fields are already numeric.) -/
def isWhaleTrade (t : Trade) (threshold : ℚ) : Bool :=
  if t.qty ≤ 0 ∨ t.price ≤ 0 then false
  else decide (threshold ≤ ratMul t.qty t.price)

/-- `WhaleDetector._is_duplicate_alert`: the trade's key is already in
the symbol's recent-alert set. -/
def isDuplicateAlert (st : DetectorState) (t : Trade) (symbol : String) : Bool :=
  decide (tradeKey symbol t ∈ st.recent_alerts symbol)

/-- `WhaleDetector._record_alert`: adds the trade's key to the symbol's
set.  (Within `detect_whales` it is only called on keys that just
failed the duplicate check, so appending preserves the set model.) -/
def recordAlert (st : DetectorState) (t : Trade) (symbol : String) : DetectorState :=
  ⟨fun s => if s = symbol then st.recent_alerts symbol ++ [tradeKey symbol t]
            else st.recent_alerts s⟩

/-- `WhaleDetector._cleanup_old_alerts`: for every symbol whose set
exceeds 100 entries, keep `list(set)[-50:]` — the last 50 elements of
the set's enumeration `enum` (CPython's unspecified iteration order). -/
def cleanupOldAlerts (enum : List String → List String) (st : DetectorState) :
    DetectorState :=
  ⟨fun s =>
    let l := st.recent_alerts s
    if 100 < l.length then (enum l).drop ((enum l).length - 50) else l⟩

/-- The body of the `for trade in trades` loop of
`WhaleDetector.detect_whales`: threshold gate, then dedup gate; an
emitted trade is appended to the output and its key recorded before the
next trade is examined. -/
def whaleStep (threshold : ℚ) (symbol : String)
    (p : List Trade × DetectorState) (t : Trade) : List Trade × DetectorState :=
  if isWhaleTrade t threshold then
    if isDuplicateAlert p.2 t symbol then p
    else (p.1 ++ [t], recordAlert p.2 t symbol)
  else p

/-- `WhaleDetector.detect_whales`: early-returns `[]` on an empty input
(skipping the cleanup), otherwise folds `whaleStep` over the trades and
finally runs `_cleanup_old_alerts`.  Returns the emitted whale trades
and the updated state. -/
def detectWhales (enum : List String → List String) (cfg : Config)
    (st : DetectorState) (trades : List Trade) (symbol : String) :
    List Trade × DetectorState :=
  if trades = [] then ([], st)
  else
    let threshold := getWhaleThreshold cfg symbol
    let r := trades.foldl (whaleStep threshold symbol) ([], st)
    (r.1, cleanupOldAlerts enum r.2)

/-- Return value of `WhaleDetector.get_whale_summary`. -/
structure WhaleSummary where
  symbol : String
  threshold_usd : ℚ
  recent_alerts_count : ℕ
  detector_status : String
  deriving DecidableEq

/-- `WhaleDetector.get_whale_summary`: read-only introspection. -/
def getWhaleSummary (cfg : Config) (st : DetectorState) (symbol : String) :
    WhaleSummary :=
  { symbol := symbol
    threshold_usd := getWhaleThreshold cfg symbol
    recent_alerts_count := (st.recent_alerts symbol).length
    detector_status := "active" }

/-- Threshold resolution as the specification words it ("the threshold
table entry for the symbol with its quote suffix stripped"): only a
trailing `"USDT"` or `"USDC"` is removed.  This definition follows the
spec's words, not the source, and exists solely to be compared with
`getWhaleThreshold`. -/
def stripQuoteSuffix (symbol : String) : String :=
  if symbol.data.length ≥ 4 ∧
      symbol.data.drop (symbol.data.length - 4) = "USDT".data then
    ⟨symbol.data.take (symbol.data.length - 4)⟩
  else if symbol.data.length ≥ 4 ∧
      symbol.data.drop (symbol.data.length - 4) = "USDC".data then
    ⟨symbol.data.take (symbol.data.length - 4)⟩
  else symbol

/-- Threshold resolution as the specification words it:
`thresholdTable[stripQuoteSuffix(symbol)] ?? defaultThreshold`. -/
def specResolvedThreshold (cfg : Config) (symbol : String) : ℚ :=
  (cfg.WHALE_THRESHOLDS.lookup (stripQuoteSuffix symbol)).getD
    cfg.DEFAULT_WHALE_THRESHOLD

/-! ## Exchange monitor (`exchange_monitor.py`) -/

/-- Mutable state of `ExchangeMonitor` relevant to the fallback logic:
`self.current_exchange` (initialised to `"binance"`). -/
structure MonitorState where
  current_exchange : String
  deriving DecidableEq

/-- `ExchangeMonitor.get_recent_trades`: try Binance first and return
its result when non-empty (recording `current_exchange = "binance"`);
otherwise try Bybit and return its result when non-empty (recording
`"bybit"`); otherwise return `[]`, leaving `current_exchange`
unchanged.  The adapters' already-computed results are passed in as
`binanceRes`/`bybitRes`; the third component is the list of adapters
actually consulted, in order. -/
def getRecentTrades (binanceRes bybitRes : List Trade) (st : MonitorState) :
    List Trade × MonitorState × List String :=
  if binanceRes ≠ [] then (binanceRes, ⟨"binance"⟩, ["binance"])
  else if bybitRes ≠ [] then (bybitRes, ⟨"bybit"⟩, ["binance", "bybit"])
  else ([], st, ["binance", "bybit"])

/-- A parsed Binance trade record (`/api/v3/trades` element), with the
fields `get_recent_trades_binance` reads.  Records whose numeric fields
fail Python's `float()` never reach the mapping loop's success path and
are skipped; the model's records are already numeric. -/
structure BinanceRaw where
  price : ℚ
  qty : ℚ
  time : ℤ
  isBuyerMaker : Bool
  id : String
  deriving DecidableEq

/-- The per-record mapping of `ExchangeMonitor.get_recent_trades_binance`:
`side` is `'Buy'` when `isBuyerMaker` else `'Sell'`. -/
def processBinanceTrade (symbol : String) (r : BinanceRaw) : Trade :=
  { symbol := symbol
    price := r.price
    qty := r.qty
    time := r.time
    side := if r.isBuyerMaker then "Buy" else "Sell"
    trade_id := r.id
    exchange := "Binance" }

/-- `ExchangeMonitor.get_recent_trades_binance`, given the result of
`_make_request` (`none` models a falsy response → `return []`). -/
def getRecentTradesBinance (symbol : String) (result : Option (List BinanceRaw)) :
    List Trade :=
  match result with
  | none => []
  | some raws => raws.map (processBinanceTrade symbol)

/-- A parsed Bybit trade record (`/v5/market/recent-trade` list element):
`trade.get('side', 'Unknown')` is modelled by an optional side string. -/
structure BybitRaw where
  price : ℚ
  size : ℚ
  time : ℤ
  side : Option String
  execId : String
  deriving DecidableEq

/-- The per-record mapping of `ExchangeMonitor.get_recent_trades_bybit`:
the source's `side` string is copied through unchanged, defaulting to
`'Unknown'` when absent. -/
def processBybitTrade (symbol : String) (r : BybitRaw) : Trade :=
  { symbol := symbol
    price := r.price
    qty := r.size
    time := r.time
    side := r.side.getD "Unknown"
    trade_id := r.execId
    exchange := "Bybit" }

/-- The Bybit response envelope checked by `get_recent_trades_bybit`. -/
structure BybitResponse where
  retCode : ℤ
  list : List BybitRaw
  deriving DecidableEq

/-- `ExchangeMonitor.get_recent_trades_bybit`, given the result of
`_make_request`: empty on no data or non-zero `retCode`, otherwise the
mapped record list. -/
def getRecentTradesBybit (symbol : String) (result : Option BybitResponse) :
    List Trade :=
  match result with
  | none => []
  | some resp =>
      if resp.retCode = 0 then resp.list.map (processBybitTrade symbol)
      else []

/-! ## Retrying fetcher (`ExchangeMonitor._make_request` and
`CryptoMonitor._make_request`)

The two `_make_request` loops are textually identical except for the
sleep performed on HTTP 429: `RETRY_DELAY * (attempt + 1)` in
`exchange_monitor.py` versus `30 + (attempt * 15)` in
`crypto_monitor.py`.  An attempt's outcome (the HTTP status with parsed
body, or the exception raised inside the attempt) is an input; the model
returns the parsed body (or `none` after exhaustion), the sequence of
sleeps performed, and the number of attempts made. -/

/-- Outcome of one request attempt: HTTP 200 with parsed body, another
HTTP status, or one of the exceptions caught inside the loop. -/
inductive HttpOutcome where
  | ok (body : String)
  | status (code : ℕ)
  | timeout
  | clientError
  | unexpectedError
  deriving DecidableEq

/-- Whether an attempt's outcome is an HTTP 200 with parsed body (the
only outcome `_make_request` returns on). -/
def isOk200 : HttpOutcome → Bool
  | .ok _ => true
  | _ => false

/-- Result of `_make_request`: parsed body (or `none`), sleeps
performed (in order, in seconds), attempts made. -/
structure FetchResult where
  data : Option String
  delays : List ℚ
  attempts : ℕ
  deriving DecidableEq

/-- The `for attempt in range(MAX_RETRIES)` loop shared by both
`_make_request` variants, parameterised by the 429 backoff schedule.
`fuel` is the number of attempts still allowed, `attempt` the current
0-based index; one outcome is consumed per attempt.  On 200 the body is
returned at once; on 429 the backoff sleep always happens (even on the
last attempt) and the end-of-loop sleep is skipped (`continue`); on any
other status or caught exception the generic sleep
`RETRY_DELAY * (attempt + 1)` happens unless this was the last attempt. -/
def makeRequestGo (retryDelay : ℚ) (backoff429 : ℕ → ℚ) :
    ℕ → ℕ → List HttpOutcome → FetchResult
  | 0, _, _ => ⟨none, [], 0⟩
  | _ + 1, _, [] => ⟨none, [], 0⟩
  | fuel + 1, attempt, o :: rest =>
    match o with
    | .ok body => ⟨some body, [], 1⟩
    | .status code =>
      if code = 429 then
        let r := makeRequestGo retryDelay backoff429 fuel (attempt + 1) rest
        ⟨r.data, backoff429 attempt :: r.delays, r.attempts + 1⟩
      else
        let r := makeRequestGo retryDelay backoff429 fuel (attempt + 1) rest
        ⟨r.data,
         (if fuel ≠ 0 then [retryDelay * ((attempt : ℚ) + 1)] else []) ++ r.delays,
         r.attempts + 1⟩
    | _ =>
      let r := makeRequestGo retryDelay backoff429 fuel (attempt + 1) rest
      ⟨r.data,
       (if fuel ≠ 0 then [retryDelay * ((attempt : ℚ) + 1)] else []) ++ r.delays,
       r.attempts + 1⟩

/-- `ExchangeMonitor._make_request`: on 429 sleeps
`self.config.RETRY_DELAY * (attempt + 1)` — the same formula as the
generic retry sleep. -/
def makeRequestExchange (cfg : Config) (outcomes : List HttpOutcome) : FetchResult :=
  makeRequestGo cfg.RETRY_DELAY (fun attempt => cfg.RETRY_DELAY * ((attempt : ℚ) + 1))
    cfg.MAX_RETRIES 0 outcomes

/-- `CryptoMonitor._make_request`: on 429 sleeps `30 + (attempt * 15)`. -/
def makeRequestCrypto (cfg : Config) (outcomes : List HttpOutcome) : FetchResult :=
  makeRequestGo cfg.RETRY_DELAY (fun attempt => 30 + (attempt : ℚ) * 15)
    cfg.MAX_RETRIES 0 outcomes

/-! ## Polling scheduler (`WhaleAlertBot.check_whale_transactions`) -/

/-- One polling cycle of `WhaleAlertBot.check_whale_transactions`: for
each monitored symbol, fetch recent trades (`fetch` is the per-symbol
fetch+parse step; `Except.error` models an exception raised while
fetching or detecting for that symbol) inside a per-symbol
`try/except` that logs and continues.  An empty trade list still counts
as a successful check.  Notification errors are caught inside
`send_whale_alert` and cannot escape.  Returns the final detector
state, `successful_checks`, and the list of symbols actually processed,
in order.  `cycleStep` is the per-symbol loop body. -/
def cycleStep (enum : List String → List String) (cfg : Config)
    (fetch : String → Except String (List Trade))
    (acc : DetectorState × ℕ × List String) (symbol : String) :
    DetectorState × ℕ × List String :=
  match fetch symbol with
  | Except.error _ => (acc.1, acc.2.1, acc.2.2 ++ [symbol])
  | Except.ok trades =>
    if trades = [] then (acc.1, acc.2.1 + 1, acc.2.2 ++ [symbol])
    else
      let r := detectWhales enum cfg acc.1 trades symbol
      (r.2, acc.2.1 + 1, acc.2.2 ++ [symbol])

/-- `WhaleAlertBot.check_whale_transactions`: fold `cycleStep` over the
configured symbols. -/
def checkWhaleTransactions (enum : List String → List String) (cfg : Config)
    (st0 : DetectorState) (fetch : String → Except String (List Trade)) :
    DetectorState × ℕ × List String :=
  cfg.MONITORED_SYMBOLS.foldl (cycleStep enum cfg fetch) (st0, 0, [])

/-! ## Concrete instances used by witnesses and counterexamples -/

/-- The default configuration of `config.py` (environment unset):
thresholds `BTC:100000,ETH:50000,BNB:25000,ADA:10000,SOL:15000`,
default threshold 10000, `MAX_RETRIES = 3`, `RETRY_DELAY = 5`. -/
def cfgDefault : Config :=
  { WHALE_THRESHOLDS :=
      [("BTC", 100000), ("ETH", 50000), ("BNB", 25000), ("ADA", 10000), ("SOL", 15000)]
    DEFAULT_WHALE_THRESHOLD := 10000
    MAX_RETRIES := 3
    RETRY_DELAY := 5
    MONITORED_SYMBOLS := ["BTCUSDT", "ETHUSDT", "BNBUSDT", "ADAUSDT", "SOLUSDT"] }

/-- A configuration whose threshold table has a `USDC` entry
(configurable via the `WHALE_THRESHOLDS` environment variable, e.g.
`"USDC:5000"`). -/
def cfgUSDC : Config :=
  { WHALE_THRESHOLDS := [("USDC", 5000)]
    DEFAULT_WHALE_THRESHOLD := 10000
    MAX_RETRIES := 3
    RETRY_DELAY := 5
    MONITORED_SYMBOLS := ["USDCUSDT"] }

/-- A configuration with threshold 0 for every symbol. -/
def cfgZero : Config :=
  { WHALE_THRESHOLDS := []
    DEFAULT_WHALE_THRESHOLD := 0
    MAX_RETRIES := 3
    RETRY_DELAY := 5
    MONITORED_SYMBOLS := ["BTCUSDT"] }

/-- The spec's scenario trade: BTCUSDT, price 50000, quantity 2.5. -/
def btcTrade : Trade :=
  { symbol := "BTCUSDT", price := 50000, qty := mkRat 5 2, time := 1700000000000
    side := "Buy", trade_id := "tx123", exchange := "Binance" }

/-- A USDC/USDT trade worth 6000 USD. -/
def usdcTrade : Trade :=
  { symbol := "USDCUSDT", price := 1, qty := 6000, time := 1700000000000
    side := "Buy", trade_id := "tx9", exchange := "Binance" }

/-- A trade with negative quantity (nominal value 125000 USD). -/
def badQtyTrade : Trade :=
  { symbol := "BTCUSDT", price := -50000, qty := mkRat (-5) 2, time := 1700000000000
    side := "Sell", trade_id := "tx666", exchange := "Binance" }

/-- A Bybit record whose `side` key is absent. -/
def bybitNoSide : BybitRaw :=
  { price := 50000, size := 10, time := 0, side := none, execId := "e1" }

/-- A successful Bybit response containing only `bybitNoSide`. -/
def bybitRespNoSide : BybitResponse := { retCode := 0, list := [bybitNoSide] }

/-- A Binance record with the maker flag set. -/
def binanceRawBuy : BinanceRaw :=
  { price := 50000, qty := 3, time := 0, isBuyerMaker := true, id := "b1" }

/-- A successful Bybit response whose records carry explicit
`"Buy"`/`"Sell"` side strings. -/
def bybitRespBuySell : BybitResponse :=
  { retCode := 0
    list := [{ price := 1, size := 2, time := 0, side := some "Buy", execId := "e2" },
             { price := 1, size := 2, time := 1, side := some "Sell", execId := "e3" }] }

/-- The trades of the C3 scenario: 150 distinct whale trades for one
symbol (value 5,000,000 USD each, distinct `trade_id`s). -/
def c3Trade (i : ℕ) : Trade :=
  { symbol := "BTCUSDT", price := 50000, qty := 100, time := (i : ℤ)
    side := "Buy", trade_id := "k" ++ toString i, exchange := "Binance" }

/-- 150 successive `detect_whales` calls, one fresh whale trade each,
with the set enumerated in reverse insertion order (one of the orders
CPython's unordered `set` may present to `list(...)`); accumulates all
emitted trades and the final state. -/
def c3Run : List Trade × DetectorState :=
  (List.range 150).foldl
    (fun p i =>
      let r := detectWhales List.reverse cfgDefault p.2 [c3Trade i] "BTCUSDT"
      (p.1 ++ r.1, r.2))
    ([], initState)

/-! ## Lemmas about the detector -/

lemma ratMul_eq_mul (a b : ℚ) : ratMul a b = a * b := by
  unfold ratMul
  rw [Rat.mkRat_eq_div]
  push_cast
  rw [← div_mul_div_comm, Rat.num_div_den, Rat.num_div_den]

lemma isWhaleTrade_pos {t : Trade} {th : ℚ} (hq : 0 < t.qty) (hp : 0 < t.price)
    (hth : th ≤ t.qty * t.price) : isWhaleTrade t th = true := by
  have hno : ¬(t.qty ≤ 0 ∨ t.price ≤ 0) := by
    rintro (h | h) <;> linarith
  simp [isWhaleTrade, hno, ratMul_eq_mul, hth]

lemma isWhaleTrade_false_of_nonpos {t : Trade} {th : ℚ}
    (h : t.qty ≤ 0 ∨ t.price ≤ 0) : isWhaleTrade t th = false := by
  simp [isWhaleTrade, h]

lemma recordAlert_at_symbol (st : DetectorState) (t : Trade) (symbol : String) :
    (recordAlert st t symbol).recent_alerts symbol =
      st.recent_alerts symbol ++ [tradeKey symbol t] := by
  simp [recordAlert]

lemma whaleStep_fst_mem {th : ℚ} {sym : String} {p : List Trade × DetectorState}
    {t x : Trade} (h : x ∈ p.1) : x ∈ (whaleStep th sym p t).1 := by
  unfold whaleStep
  split
  · split
    · exact h
    · exact List.mem_append_left _ h
  · exact h

lemma whaleStep_cache_not_mem {th : ℚ} {sym : String}
    {p : List Trade × DetectorState} {t x : Trade}
    (h : tradeKey sym x ∉ p.2.recent_alerts sym)
    (hne : tradeKey sym t ≠ tradeKey sym x) :
    tradeKey sym x ∉ (whaleStep th sym p t).2.recent_alerts sym := by
  unfold whaleStep
  split
  · split
    · exact h
    · intro hc
      rw [recordAlert_at_symbol] at hc
      rcases List.mem_append.1 hc with h1 | h1
      · exact h h1
      · exact hne (List.mem_singleton.1 h1).symm
  · exact h

lemma foldl_whaleStep_mem {th : ℚ} {sym : String} {x : Trade} :
    ∀ (l : List Trade) (p : List Trade × DetectorState),
      x ∈ p.1 → x ∈ (l.foldl (whaleStep th sym) p).1 := by
  intro l
  induction l with
  | nil => intro p h; exact h
  | cons t ts ih =>
    intro p h
    rw [List.foldl_cons]
    exact ih _ (whaleStep_fst_mem h)

lemma foldl_first_seen {th : ℚ} {sym : String} {t : Trade} (post : List Trade)
    (hw : isWhaleTrade t th = true) :
    ∀ (pre : List Trade) (p : List Trade × DetectorState),
      tradeKey sym t ∉ p.2.recent_alerts sym →
      (∀ u ∈ pre, tradeKey sym u ≠ tradeKey sym t) →
      t ∈ ((pre ++ t :: post).foldl (whaleStep th sym) p).1 := by
  intro pre
  induction pre with
  | nil =>
    intro p hf _
    rw [List.nil_append, List.foldl_cons]
    apply foldl_whaleStep_mem
    have hd : isDuplicateAlert p.2 t sym = false := by
      simp [isDuplicateAlert, hf]
    simp [whaleStep, hw, hd]
  | cons u us ih =>
    intro p hf hpre
    rw [List.cons_append, List.foldl_cons]
    exact ih _ (whaleStep_cache_not_mem hf (hpre u (List.mem_cons_self u us)))
      (fun v hv => hpre v (List.mem_cons_of_mem _ hv))

lemma foldl_all_whales {th : ℚ} {sym : String} :
    ∀ (l : List Trade) (p : List Trade × DetectorState),
      (∀ u ∈ p.1, isWhaleTrade u th = true) →
      ∀ u ∈ (l.foldl (whaleStep th sym) p).1, isWhaleTrade u th = true := by
  intro l
  induction l with
  | nil => intro p hp; exact hp
  | cons t ts ih =>
    intro p hp
    rw [List.foldl_cons]
    apply ih
    intro u hu
    unfold whaleStep at hu
    split at hu
    case isTrue hwt =>
      split at hu
      · exact hp u hu
      · rcases List.mem_append.1 hu with h1 | h1
        · exact hp u h1
        · rw [List.mem_singleton.1 h1]; exact hwt
    case isFalse _ => exact hp u hu

lemma foldl_nodup_keys {th : ℚ} {sym : String} :
    ∀ (l : List Trade) (p : List Trade × DetectorState),
      (p.1.map (tradeKey sym)).Nodup →
      (∀ k ∈ p.1.map (tradeKey sym), k ∈ p.2.recent_alerts sym) →
      ((l.foldl (whaleStep th sym) p).1.map (tradeKey sym)).Nodup := by
  intro l
  induction l with
  | nil => intro p hnd _; exact hnd
  | cons t ts ih =>
    intro p hnd hsub
    rw [List.foldl_cons]
    unfold whaleStep
    split
    · split
      case isTrue hdup => exact ih _ hnd hsub
      case isFalse hdup =>
        apply ih
        · rw [List.map_append]
          rw [List.nodup_append]
          refine ⟨hnd, List.nodup_singleton _, ?_⟩
          intro k hk hk1
          rw [List.map_singleton, List.mem_singleton] at hk1
          subst hk1
          apply hdup
          simp only [isDuplicateAlert, decide_eq_true_eq]
          exact hsub _ hk
        · intro k hk
          rw [List.map_append, List.map_singleton] at hk
          rw [recordAlert_at_symbol]
          rcases List.mem_append.1 hk with h1 | h1
          · exact List.mem_append_left _ (hsub k h1)
          · exact List.mem_append_right _ h1
    · exact ih _ hnd hsub

lemma cleanup_length_le {enum : List String → List String}
    (henum : ∀ l : List String, (enum l).length = l.length)
    (st : DetectorState) (s : String) :
    ((cleanupOldAlerts enum st).recent_alerts s).length ≤ 100 := by
  unfold cleanupOldAlerts
  dsimp only
  split
  case isTrue h => rw [List.length_drop, henum]; omega
  case isFalse h => omega

lemma detectWhales_single_fresh (enum : List String → List String) (cfg : Config)
    (st : DetectorState) (symbol : String) (t : Trade)
    (hw : isWhaleTrade t (getWhaleThreshold cfg symbol) = true)
    (hfresh : tradeKey symbol t ∉ st.recent_alerts symbol) :
    detectWhales enum cfg st [t] symbol =
      ([t], cleanupOldAlerts enum (recordAlert st t symbol)) := by
  have hd : isDuplicateAlert st t symbol = false := by
    simp [isDuplicateAlert, hfresh]
  simp [detectWhales, whaleStep, hw, hd]

lemma detectWhales_single_dup (enum : List String → List String) (cfg : Config)
    (st : DetectorState) (symbol : String) (t : Trade)
    (hdup : tradeKey symbol t ∈ st.recent_alerts symbol) :
    detectWhales enum cfg st [t] symbol = ([], cleanupOldAlerts enum st) := by
  have hd : isDuplicateAlert st t symbol = true := by
    simp [isDuplicateAlert, hdup]
  by_cases hw : isWhaleTrade t (getWhaleThreshold cfg symbol) = true
  · simp [detectWhales, whaleStep, hw, hd]
  · simp [detectWhales, whaleStep, Bool.of_not_eq_true hw]

/-! ## Claim theorems: whale detector -/

/-- C1 (counterexample): the claim's threshold resolution ("the
threshold table entry for the symbol with its quote suffix stripped")
does not match the code.  For the real pair `USDCUSDT` with a `USDC`
table entry of 5000, a fresh 6000-USD trade satisfies every hypothesis
of the claim (positive quantity and price, value above the
suffix-stripped threshold, key not cached), yet `detect_whales` does
not include it: the code strips ALL occurrences of `"USDT"` and
`"USDC"`, turning `"USDCUSDT"` into `""`, so the default threshold
10000 applies and the trade fails the gate. -/
theorem whale_threshold_not_suffix_strip :
    0 < usdcTrade.qty ∧ 0 < usdcTrade.price ∧
    specResolvedThreshold cfgUSDC "USDCUSDT" ≤ usdcTrade.qty * usdcTrade.price ∧
    tradeKey "USDCUSDT" usdcTrade ∉ initState.recent_alerts "USDCUSDT" ∧
    usdcTrade ∉ (detectWhales id cfgUSDC initState [usdcTrade] "USDCUSDT").1 := by
  refine ⟨by decide, by decide, ?_, by decide, by decide⟩
  rw [(by decide : specResolvedThreshold cfgUSDC "USDCUSDT" = (5000 : ℚ))]
  norm_num [usdcTrade]

/-- C1 (amended): for every trade with positive quantity and price whose
USD value reaches the threshold that `Config.get_whale_threshold`
resolves for the symbol (table entry for the symbol with every
occurrence of `"USDT"` and then `"USDC"` removed, else the default),
`detect_whales` includes the trade in its output on first submission:
its key is not in the recency cache and no earlier trade of the batch
shares its key. -/
theorem detect_whales_first_seen
    (enum : List String → List String) (cfg : Config) (st : DetectorState)
    (symbol : String) (pre post : List Trade) (t : Trade)
    (hq : 0 < t.qty) (hp : 0 < t.price)
    (hth : getWhaleThreshold cfg symbol ≤ t.qty * t.price)
    (hfresh : tradeKey symbol t ∉ st.recent_alerts symbol)
    (hpre : ∀ u ∈ pre, tradeKey symbol u ≠ tradeKey symbol t) :
    t ∈ (detectWhales enum cfg st (pre ++ t :: post) symbol).1 := by
  have hne : pre ++ t :: post ≠ [] := by simp
  unfold detectWhales
  rw [if_neg hne]
  exact foldl_first_seen post (isWhaleTrade_pos hq hp hth) pre ([], st) hfresh hpre

/-- Witness for C1's amended theorem: the spec's scenario trade
(BTCUSDT, price 50000, quantity 2.5, value 125000 ≥ 100000) is emitted
from the empty cache. -/
theorem detect_whales_first_seen_witness :
    (0 < btcTrade.qty ∧ 0 < btcTrade.price ∧
      getWhaleThreshold cfgDefault "BTCUSDT" ≤ btcTrade.qty * btcTrade.price ∧
      tradeKey "BTCUSDT" btcTrade ∉ initState.recent_alerts "BTCUSDT") ∧
    btcTrade ∈ (detectWhales id cfgDefault initState ([] ++ btcTrade :: []) "BTCUSDT").1 := by
  have hq : 0 < btcTrade.qty := by decide
  have hp : 0 < btcTrade.price := by decide
  have hth : getWhaleThreshold cfgDefault "BTCUSDT" ≤ btcTrade.qty * btcTrade.price := by
    rw [(by decide : getWhaleThreshold cfgDefault "BTCUSDT" = (100000 : ℚ))]
    norm_num [btcTrade, Rat.mkRat_eq_div]
  have hfresh : tradeKey "BTCUSDT" btcTrade ∉ initState.recent_alerts "BTCUSDT" := by
    decide
  exact ⟨⟨hq, hp, hth, hfresh⟩,
    detect_whales_first_seen id cfgDefault initState "BTCUSDT" [] [] btcTrade
      hq hp hth hfresh (by decide)⟩

lemma cleanup_small {enum : List String → List String} {st : DetectorState}
    {s : String} (h : (st.recent_alerts s).length ≤ 100) :
    (cleanupOldAlerts enum st).recent_alerts s = st.recent_alerts s := by
  unfold cleanupOldAlerts
  dsimp only
  rw [if_neg]
  omega

/-- C2 (confirmed): a whale trade submitted twice to `detect_whales`
from a fresh detector yields an alert only on the first submission
(identical trade, hence identical identity key — `trade_id` when
non-empty, else the symbol/price/qty/timestamp composite); the second
submission is removed by the dedup gate, and the symbol's recent alert
count in `get_whale_summary` is 1. -/
theorem detect_whales_dedup_idempotent
    (enum : List String → List String) (cfg : Config) (symbol : String) (t : Trade)
    (hq : 0 < t.qty) (hp : 0 < t.price)
    (hth : getWhaleThreshold cfg symbol ≤ t.qty * t.price) :
    (detectWhales enum cfg initState [t] symbol).1 = [t] ∧
    (detectWhales enum cfg (detectWhales enum cfg initState [t] symbol).2 [t] symbol).1
      = [] ∧
    (getWhaleSummary cfg
        (detectWhales enum cfg (detectWhales enum cfg initState [t] symbol).2
          [t] symbol).2 symbol).recent_alerts_count = 1 := by
  have hw := isWhaleTrade_pos hq hp hth
  have hfresh : tradeKey symbol t ∉ initState.recent_alerts symbol := by
    simp [initState]
  have h1 := detectWhales_single_fresh enum cfg initState symbol t hw hfresh
  have hrec : (recordAlert initState t symbol).recent_alerts symbol
      = [tradeKey symbol t] := by
    rw [recordAlert_at_symbol]
    simp [initState]
  have hst1 : (cleanupOldAlerts enum (recordAlert initState t symbol)).recent_alerts
      symbol = [tradeKey symbol t] := by
    rw [cleanup_small (by rw [hrec]; simp), hrec]
  have h2 := detectWhales_single_dup enum cfg
    (cleanupOldAlerts enum (recordAlert initState t symbol)) symbol t
    (by rw [hst1]; exact List.mem_singleton_self _)
  refine ⟨by rw [h1], ?_, ?_⟩
  · rw [h1]
    exact congrArg Prod.fst h2
  · rw [h1]
    dsimp only
    rw [h2]
    dsimp only [getWhaleSummary]
    rw [cleanup_small (by rw [hst1]; simp), hst1]
    rfl

/-- Witness for C2: the spec's scenario (BTCUSDT whale trade with
tradeId `"tx123"` submitted twice). -/
theorem detect_whales_dedup_idempotent_witness :
    (0 < btcTrade.qty ∧ 0 < btcTrade.price ∧
      getWhaleThreshold cfgDefault "BTCUSDT" ≤ btcTrade.qty * btcTrade.price) ∧
    ((detectWhales id cfgDefault initState [btcTrade] "BTCUSDT").1 = [btcTrade] ∧
      (detectWhales id cfgDefault
        (detectWhales id cfgDefault initState [btcTrade] "BTCUSDT").2
        [btcTrade] "BTCUSDT").1 = [] ∧
      (getWhaleSummary cfgDefault
          (detectWhales id cfgDefault
            (detectWhales id cfgDefault initState [btcTrade] "BTCUSDT").2
            [btcTrade] "BTCUSDT").2 "BTCUSDT").recent_alerts_count = 1) := by
  have hq : 0 < btcTrade.qty := by decide
  have hp : 0 < btcTrade.price := by decide
  have hth : getWhaleThreshold cfgDefault "BTCUSDT" ≤ btcTrade.qty * btcTrade.price := by
    rw [(by decide : getWhaleThreshold cfgDefault "BTCUSDT" = (100000 : ℚ))]
    norm_num [btcTrade, Rat.mkRat_eq_div]
  exact ⟨⟨hq, hp, hth⟩,
    detect_whales_dedup_idempotent id cfgDefault "BTCUSDT" btcTrade hq hp hth⟩

set_option maxRecDepth 1000000 in
set_option maxHeartbeats 2000000 in
/-- C3 (counterexample): 150 successive `detect_whales` calls insert
150 distinct alert keys for `BTCUSDT`; all 150 are emitted (so all 150
keys were inserted), the final cache holds 99 (≤ 100) entries, but the
key of trade 100 — one of the 50 most recently inserted — is NOT
retained: the trim keeps `list(set)[-50:]`, the last 50 elements of the
set's unspecified iteration order, which under the reversed order are
the 50 OLDEST keys, so "the 50 most recently inserted keys are
retained" fails. -/
theorem cache_trim_not_most_recent :
    c3Run.1.length = 150 ∧
    (c3Run.1.map (tradeKey "BTCUSDT")).Nodup ∧
    (c3Run.2.recent_alerts "BTCUSDT").length = 99 ∧
    tradeKey "BTCUSDT" (c3Trade 100) ∉ c3Run.2.recent_alerts "BTCUSDT" := by
  refine ⟨by decide, by decide, by decide, by decide⟩

/-- C3 (amended): the boundedness half of the claim holds for every
set-enumeration order: after any `detect_whales` call on a non-empty
batch (in particular after the 150 insertions of the scenario), every
symbol's recent-alert cache holds at most 100 entries — the trim
replaces any cache that exceeded 100 entries by 50 surviving entries.
Which 50 survive depends on the set's iteration order, so the "most
recently inserted" part is not guaranteed (see the counterexample). -/
theorem detect_whales_cache_bounded
    (enum : List String → List String)
    (henum : ∀ l : List String, (enum l).length = l.length)
    (cfg : Config) (st : DetectorState) (trades : List Trade) (symbol : String)
    (hne : trades ≠ []) (s : String) :
    (((detectWhales enum cfg st trades symbol).2).recent_alerts s).length ≤ 100 := by
  unfold detectWhales
  rw [if_neg hne]
  dsimp only
  exact cleanup_length_le henum _ s

set_option maxRecDepth 1000000 in
set_option maxHeartbeats 2000000 in
/-- Witness for C3's amended theorem: the final state of the 150-call
scenario run satisfies the bound. -/
theorem detect_whales_cache_bounded_witness :
    (∀ l : List String, (List.reverse l).length = l.length) ∧
    ([c3Trade 149] : List Trade) ≠ [] ∧
    (((detectWhales List.reverse cfgDefault c3Run.2 [c3Trade 149]
        "BTCUSDT").2).recent_alerts "BTCUSDT").length ≤ 100 :=
  ⟨fun l => List.length_reverse l, by decide,
    detect_whales_cache_bounded List.reverse (fun l => List.length_reverse l)
      cfgDefault c3Run.2 [c3Trade 149] "BTCUSDT" (by decide) "BTCUSDT"⟩

/-- C4 (confirmed): a trade with non-positive quantity or price is
never in `detect_whales` output, whatever its nominal USD value and
whatever the configuration; and when the resolved threshold is 0, every
positive-quantity positive-price trade passes the threshold gate
(`_is_whale_trade` returns true). -/
theorem detect_whales_gates :
    (∀ (enum : List String → List String) (cfg : Config) (st : DetectorState)
        (trades : List Trade) (symbol : String) (t : Trade),
        t.qty ≤ 0 ∨ t.price ≤ 0 →
        t ∉ (detectWhales enum cfg st trades symbol).1) ∧
    (∀ (cfg : Config) (symbol : String) (t : Trade),
        getWhaleThreshold cfg symbol = 0 → 0 < t.qty → 0 < t.price →
        isWhaleTrade t (getWhaleThreshold cfg symbol) = true) := by
  constructor
  · intro enum cfg st trades symbol t ht hmem
    unfold detectWhales at hmem
    split at hmem
    · simp at hmem
    · dsimp only at hmem
      have h := foldl_all_whales trades ([], st) (by intro u hu; simp at hu) t hmem
      rw [isWhaleTrade_false_of_nonpos ht] at h
      exact Bool.false_ne_true h
  · intro cfg symbol t h0 hq hp
    apply isWhaleTrade_pos hq hp
    rw [h0]
    exact le_of_lt (mul_pos hq hp)

/-- Witness for C4: `badQtyTrade` (negative quantity and price, nominal
value +125000 USD) is excluded, and the scenario trade passes the gate
under an all-zero threshold configuration. -/
theorem detect_whales_gates_witness :
    ((badQtyTrade.qty ≤ 0 ∨ badQtyTrade.price ≤ 0) ∧
      badQtyTrade ∉ (detectWhales id cfgDefault initState [badQtyTrade] "BTCUSDT").1) ∧
    (getWhaleThreshold cfgZero "BTCUSDT" = 0 ∧ 0 < btcTrade.qty ∧ 0 < btcTrade.price ∧
      isWhaleTrade btcTrade (getWhaleThreshold cfgZero "BTCUSDT") = true) :=
  ⟨⟨by decide,
      detect_whales_gates.1 id cfgDefault initState [badQtyTrade] "BTCUSDT"
        badQtyTrade (by decide)⟩,
    by decide, by decide, by decide,
    detect_whales_gates.2 cfgZero "BTCUSDT" btcTrade (by decide) (by decide) (by decide)⟩

/-- C10 (confirmed): within a single `detect_whales` call no two trades
of the returned list share an identity key: each emitted trade's key is
recorded in the cache before the next trade is examined, so
within-batch duplicates are suppressed like cross-poll duplicates. -/
theorem detect_whales_batch_nodup (enum : List String → List String)
    (cfg : Config) (st : DetectorState) (trades : List Trade) (symbol : String) :
    ((detectWhales enum cfg st trades symbol).1.map (tradeKey symbol)).Nodup := by
  unfold detectWhales
  split
  · simp
  · dsimp only
    exact foldl_nodup_keys trades ([], st) (by simp) (by simp)

/-! ## Claim theorems: exchange monitor and adapters -/

/-- C5 (counterexample): when every adapter yields empty,
`get_recent_trades` returns an empty list, but there is no `"none"`
sentinel source: `current_exchange` keeps its previous value
(`"binance"`, its initial value, here). -/
theorem fallback_no_none_sentinel :
    (getRecentTrades [] [] ⟨"binance"⟩).1 = [] ∧
    (getRecentTrades [] [] ⟨"binance"⟩).2.1.current_exchange ≠ "none" := by
  decide

/-- C5 (amended): `get_recent_trades` returns Binance's result whenever
it is non-empty, consulting only Binance; consults Bybit exactly when
Binance yields empty and returns Bybit's non-empty result; and when
both yield empty it returns an empty list leaving `current_exchange`
unchanged (no `"none"` sentinel). -/
theorem fallback_priority_order (b y : List Trade) (st : MonitorState) :
    (b ≠ [] → getRecentTrades b y st = (b, ⟨"binance"⟩, ["binance"])) ∧
    (b = [] → y ≠ [] → getRecentTrades b y st = (y, ⟨"bybit"⟩, ["binance", "bybit"])) ∧
    (b = [] → y = [] → getRecentTrades b y st = ([], st, ["binance", "bybit"])) := by
  refine ⟨fun hb => ?_, fun hb hy => ?_, fun hb hy => ?_⟩
  · simp [getRecentTrades, hb]
  · simp [getRecentTrades, hb, hy]
  · simp [getRecentTrades, hb, hy]

/-- Witness for C5's amended theorem: a non-empty Binance result is
returned as-is with only Binance consulted; with Binance empty, a
non-empty Bybit result is returned. -/
theorem fallback_priority_order_witness :
    (([btcTrade] : List Trade) ≠ [] ∧
      getRecentTrades [btcTrade] [] ⟨"binance"⟩
        = ([btcTrade], ⟨"binance"⟩, ["binance"])) ∧
    (([] : List Trade) = [] ∧ ([usdcTrade] : List Trade) ≠ [] ∧
      getRecentTrades [] [usdcTrade] ⟨"binance"⟩
        = ([usdcTrade], ⟨"bybit"⟩, ["binance", "bybit"])) :=
  ⟨⟨by decide, (fallback_priority_order [btcTrade] [] ⟨"binance"⟩).1 (by decide)⟩,
    rfl, by decide,
    (fallback_priority_order [] [usdcTrade] ⟨"binance"⟩).2.1 rfl (by decide)⟩

/-- C8 (counterexample): the Bybit adapter does not map the source's
side to {Buy, Sell}: a record without a `side` key is emitted with side
`"Unknown"`. -/
theorem bybit_side_not_normalized :
    (getRecentTradesBybit "BTCUSDT" (some bybitRespNoSide)).map Trade.side
      = ["Unknown"] ∧
    ("Unknown" : String) ≠ "Buy" ∧ ("Unknown" : String) ≠ "Sell" := by
  decide

/-- C8 (amended): the Binance adapter normalizes every record's side to
`"Buy"`/`"Sell"` via the maker flag; the Bybit adapter copies the
source's side string through unchanged (default `"Unknown"`), so its
output sides lie in {Buy, Sell} exactly when the source already
supplies `"Buy"`/`"Sell"` strings. -/
theorem adapters_side_normalization :
    (∀ (symbol : String) (result : Option (List BinanceRaw)) (t : Trade),
        t ∈ getRecentTradesBinance symbol result →
        t.side = "Buy" ∨ t.side = "Sell") ∧
    (∀ (symbol : String) (resp : BybitResponse),
        (∀ r ∈ resp.list, r.side = some "Buy" ∨ r.side = some "Sell") →
        ∀ t ∈ getRecentTradesBybit symbol (some resp),
          t.side = "Buy" ∨ t.side = "Sell") := by
  constructor
  · intro symbol result t ht
    cases result with
    | none => simp [getRecentTradesBinance] at ht
    | some raws =>
      simp only [getRecentTradesBinance, List.mem_map] at ht
      obtain ⟨r, _, rfl⟩ := ht
      by_cases h : r.isBuyerMaker <;> simp [processBinanceTrade, h]
  · intro symbol resp hall t ht
    simp only [getRecentTradesBybit] at ht
    split at ht
    · rw [List.mem_map] at ht
      obtain ⟨r, hr, rfl⟩ := ht
      rcases hall r hr with h | h <;> simp [processBybitTrade, h]
    · simp at ht

/-- Witness for C8's amended theorem at concrete records. -/
theorem adapters_side_normalization_witness :
    (processBinanceTrade "BTCUSDT" binanceRawBuy
        ∈ getRecentTradesBinance "BTCUSDT" (some [binanceRawBuy]) ∧
      ((processBinanceTrade "BTCUSDT" binanceRawBuy).side = "Buy" ∨
        (processBinanceTrade "BTCUSDT" binanceRawBuy).side = "Sell")) ∧
    ((∀ r ∈ bybitRespBuySell.list, r.side = some "Buy" ∨ r.side = some "Sell") ∧
      ∀ t ∈ getRecentTradesBybit "BTCUSDT" (some bybitRespBuySell),
        t.side = "Buy" ∨ t.side = "Sell") :=
  ⟨⟨by decide,
      adapters_side_normalization.1 "BTCUSDT" (some [binanceRawBuy]) _ (by decide)⟩,
    by decide,
    adapters_side_normalization.2 "BTCUSDT" bybitRespBuySell (by decide)⟩

/-! ## Lemmas about the retrying fetcher -/

lemma makeRequestGo_attempts_le (rd : ℚ) (b : ℕ → ℚ) :
    ∀ (fuel attempt : ℕ) (outcomes : List HttpOutcome),
      (makeRequestGo rd b fuel attempt outcomes).attempts ≤ fuel := by
  intro fuel
  induction fuel with
  | zero => intro attempt outcomes; simp [makeRequestGo]
  | succ n ih =>
    intro attempt outcomes
    cases outcomes with
    | nil => simp [makeRequestGo]
    | cons o rest =>
      have hr := ih (attempt + 1) rest
      cases o with
      | ok body => simp [makeRequestGo]
      | status code =>
        by_cases h : code = 429 <;> simp [makeRequestGo, h] <;> omega
      | timeout => simp [makeRequestGo]; omega
      | clientError => simp [makeRequestGo]; omega
      | unexpectedError => simp [makeRequestGo]; omega

lemma makeRequestGo_no_ok (rd : ℚ) (b : ℕ → ℚ) :
    ∀ (fuel attempt : ℕ) (outcomes : List HttpOutcome),
      (∀ o ∈ outcomes, isOk200 o = false) →
      (makeRequestGo rd b fuel attempt outcomes).data = none := by
  intro fuel
  induction fuel with
  | zero => intro attempt outcomes h; simp [makeRequestGo]
  | succ n ih =>
    intro attempt outcomes h
    cases outcomes with
    | nil => simp [makeRequestGo]
    | cons o rest =>
      have hrest : ∀ x ∈ rest, isOk200 x = false :=
        fun x hx => h x (List.mem_cons_of_mem _ hx)
      have hr := ih (attempt + 1) rest hrest
      have ho := h o (List.mem_cons_self _ _)
      cases o with
      | ok body => simp [isOk200] at ho
      | status code =>
        by_cases hc : code = 429 <;> simp [makeRequestGo, hc, hr]
      | timeout => simp [makeRequestGo, hr]
      | clientError => simp [makeRequestGo, hr]
      | unexpectedError => simp [makeRequestGo, hr]

lemma makeRequestGo_first_ok (rd : ℚ) (b : ℕ → ℚ) (body : String)
    (rest : List HttpOutcome) :
    ∀ (pre : List HttpOutcome) (fuel attempt : ℕ),
      (∀ o ∈ pre, isOk200 o = false) →
      pre.length < fuel →
      (makeRequestGo rd b fuel attempt
          (pre ++ HttpOutcome.ok body :: rest)).data = some body ∧
      (makeRequestGo rd b fuel attempt
          (pre ++ HttpOutcome.ok body :: rest)).attempts = pre.length + 1 := by
  intro pre
  induction pre with
  | nil =>
    intro fuel attempt _ hlen
    obtain ⟨n, rfl⟩ : ∃ n, fuel = n + 1 := ⟨fuel - 1, by omega⟩
    exact ⟨rfl, rfl⟩
  | cons o pre ih =>
    intro fuel attempt hpre hlen
    obtain ⟨n, rfl⟩ : ∃ n, fuel = n + 1 := ⟨fuel - 1, by omega⟩
    have hpre' : ∀ x ∈ pre, isOk200 x = false :=
      fun x hx => hpre x (List.mem_cons_of_mem _ hx)
    have hlen' : pre.length < n := by
      simp only [List.length_cons] at hlen
      omega
    have ih' := ih n (attempt + 1) hpre' hlen'
    have ho := hpre o (List.mem_cons_self _ _)
    cases o with
    | ok s => simp [isOk200] at ho
    | status code =>
      by_cases hc : code = 429 <;>
        simp [makeRequestGo, hc, ih'.1, ih'.2]
    | timeout => simp [makeRequestGo, ih'.1, ih'.2]
    | clientError => simp [makeRequestGo, ih'.1, ih'.2]
    | unexpectedError => simp [makeRequestGo, ih'.1, ih'.2]

lemma makeRequestGo_all429 (rd : ℚ) (b : ℕ → ℚ) :
    ∀ (fuel attempt : ℕ),
      makeRequestGo rd b fuel attempt (List.replicate fuel (HttpOutcome.status 429)) =
        ⟨none, (List.range' attempt fuel).map b, fuel⟩ := by
  intro fuel
  induction fuel with
  | zero => intro attempt; simp [makeRequestGo]
  | succ n ih =>
    intro attempt
    rw [List.replicate_succ]
    simp [makeRequestGo, ih (attempt + 1), List.range']

/-! ## Claim theorems: retrying fetcher -/

/-- C6 (counterexample): in `exchange_monitor.py` the backoff sleep
performed on HTTP 429 is NOT distinct from the generic retry sleep:
both are `RETRY_DELAY * (attempt + 1)`, so a 429 at attempt 0 and a 500
at attempt 0 yield the identical sleep sequence (5 seconds under the
default configuration). -/
theorem backoff_429_equals_generic_delay :
    (makeRequestExchange cfgDefault
        [HttpOutcome.status 429, HttpOutcome.ok "pong"]).delays =
      (makeRequestExchange cfgDefault
        [HttpOutcome.status 500, HttpOutcome.ok "pong"]).delays ∧
    (makeRequestExchange cfgDefault
        [HttpOutcome.status 429, HttpOutcome.ok "pong"]).delays = [5] := by
  constructor
  · rfl
  · norm_num [makeRequestExchange, makeRequestGo, cfgDefault]

/-- C6 (amended): on HTTP 429 the CoinGecko fetcher
(`crypto_monitor.py`) sleeps the progressive backoff `30 + attempt*15`,
which differs from its generic retry delay `RETRY_DELAY * (attempt+1)`
at every attempt index (under the default `RETRY_DELAY = 5`); the
exchange fetcher (`exchange_monitor.py`) sleeps
`RETRY_DELAY * (attempt+1)` on 429 — the same formula as its generic
delay; in both, 429 retries are bounded by the same `MAX_RETRIES`
attempt count as other retryable failures. -/
theorem rate_limit_backoff_schedules (cfg : Config) (h5 : cfg.RETRY_DELAY = 5) :
    makeRequestCrypto cfg (List.replicate cfg.MAX_RETRIES (HttpOutcome.status 429)) =
      ⟨none, (List.range cfg.MAX_RETRIES).map (fun i : ℕ => 30 + (i : ℚ) * 15),
        cfg.MAX_RETRIES⟩ ∧
    (∀ i : ℕ, (30 + (i : ℚ) * 15) ≠ cfg.RETRY_DELAY * ((i : ℚ) + 1)) ∧
    makeRequestExchange cfg (List.replicate cfg.MAX_RETRIES (HttpOutcome.status 429)) =
      ⟨none,
        (List.range cfg.MAX_RETRIES).map (fun i : ℕ => cfg.RETRY_DELAY * ((i : ℚ) + 1)),
        cfg.MAX_RETRIES⟩ ∧
    (∀ outcomes, (makeRequestCrypto cfg outcomes).attempts ≤ cfg.MAX_RETRIES) := by
  refine ⟨?_, ?_, ?_, fun outcomes => makeRequestGo_attempts_le _ _ _ _ _⟩
  · unfold makeRequestCrypto
    rw [List.range_eq_range']
    exact makeRequestGo_all429 _ _ _ 0
  · intro i heq
    rw [h5] at heq
    have hnn : (0 : ℚ) ≤ (i : ℚ) := Nat.cast_nonneg i
    linarith
  · unfold makeRequestExchange
    rw [List.range_eq_range']
    exact makeRequestGo_all429 _ _ _ 0

/-- Witness for C6's amended theorem at the default configuration
(schedules `[30, 45, 60]` versus `[5, 10, 15]`). -/
theorem rate_limit_backoff_schedules_witness :
    cfgDefault.RETRY_DELAY = 5 ∧
    (makeRequestCrypto cfgDefault
        (List.replicate cfgDefault.MAX_RETRIES (HttpOutcome.status 429)) =
      ⟨none, (List.range cfgDefault.MAX_RETRIES).map (fun i : ℕ => 30 + (i : ℚ) * 15),
        cfgDefault.MAX_RETRIES⟩ ∧
    (∀ i : ℕ, (30 + (i : ℚ) * 15) ≠ cfgDefault.RETRY_DELAY * ((i : ℚ) + 1)) ∧
    makeRequestExchange cfgDefault
        (List.replicate cfgDefault.MAX_RETRIES (HttpOutcome.status 429)) =
      ⟨none,
        (List.range cfgDefault.MAX_RETRIES).map
          (fun i : ℕ => cfgDefault.RETRY_DELAY * ((i : ℚ) + 1)),
        cfgDefault.MAX_RETRIES⟩ ∧
    (∀ outcomes, (makeRequestCrypto cfgDefault outcomes).attempts
        ≤ cfgDefault.MAX_RETRIES)) :=
  ⟨rfl, rate_limit_backoff_schedules cfgDefault rfl⟩

/-- C7 (confirmed): `_make_request` makes at most `MAX_RETRIES`
attempts; whenever some attempt within the retry budget receives a 200
— after any prefix of non-200 attempts (429s, other statuses, timeouts,
client errors, unexpected exceptions) — the parsed body is returned at
once, with no attempt made after it; and when no attempt receives a 200
— all of those failures are caught inside the loop — the caller
receives `none` rather than an exception. -/
theorem make_request_retry_contract (cfg : Config) (outcomes : List HttpOutcome) :
    (makeRequestExchange cfg outcomes).attempts ≤ cfg.MAX_RETRIES ∧
    (∀ (pre rest : List HttpOutcome) (body : String),
        outcomes = pre ++ HttpOutcome.ok body :: rest →
        (∀ o ∈ pre, isOk200 o = false) →
        pre.length < cfg.MAX_RETRIES →
        (makeRequestExchange cfg outcomes).data = some body ∧
        (makeRequestExchange cfg outcomes).attempts = pre.length + 1) ∧
    ((∀ o ∈ outcomes, isOk200 o = false) →
        (makeRequestExchange cfg outcomes).data = none) := by
  refine ⟨makeRequestGo_attempts_le _ _ _ _ _, ?_,
    fun h => makeRequestGo_no_ok _ _ _ _ _ h⟩
  intro pre rest body hout hpre hlen
  subst hout
  exact makeRequestGo_first_ok _ _ body rest pre cfg.MAX_RETRIES 0 hpre hlen

/-- Witness for C7: the spec's retry-then-succeed run — two 429s then a
200 — succeeds on the third attempt under the default configuration,
and a run with no 200 yields `none`. -/
theorem make_request_retry_contract_witness :
    (([HttpOutcome.status 429, HttpOutcome.status 429, HttpOutcome.ok "pong"] :
        List HttpOutcome)
      = [HttpOutcome.status 429, HttpOutcome.status 429]
          ++ HttpOutcome.ok "pong" :: [] ∧
      (∀ o ∈ ([HttpOutcome.status 429, HttpOutcome.status 429] : List HttpOutcome),
        isOk200 o = false) ∧
      ([HttpOutcome.status 429, HttpOutcome.status 429] :
        List HttpOutcome).length < cfgDefault.MAX_RETRIES) ∧
    ((makeRequestExchange cfgDefault
        [HttpOutcome.status 429, HttpOutcome.status 429,
          HttpOutcome.ok "pong"]).data = some "pong" ∧
      (makeRequestExchange cfgDefault
        [HttpOutcome.status 429, HttpOutcome.status 429,
          HttpOutcome.ok "pong"]).attempts
        = ([HttpOutcome.status 429, HttpOutcome.status 429] :
            List HttpOutcome).length + 1) ∧
    (makeRequestExchange cfgDefault
        [HttpOutcome.status 429, HttpOutcome.status 429,
          HttpOutcome.ok "pong"]).attempts ≤ cfgDefault.MAX_RETRIES ∧
    ((∀ o ∈ ([HttpOutcome.timeout, HttpOutcome.status 500,
          HttpOutcome.clientError] : List HttpOutcome), isOk200 o = false) ∧
      (makeRequestExchange cfgDefault
        [HttpOutcome.timeout, HttpOutcome.status 500,
          HttpOutcome.clientError]).data = none) :=
  ⟨⟨by decide, by decide, by decide⟩,
    (make_request_retry_contract cfgDefault
        [HttpOutcome.status 429, HttpOutcome.status 429, HttpOutcome.ok "pong"]).2.1
      [HttpOutcome.status 429, HttpOutcome.status 429] [] "pong"
      (by decide) (by decide) (by decide),
    (make_request_retry_contract cfgDefault
        [HttpOutcome.status 429, HttpOutcome.status 429, HttpOutcome.ok "pong"]).1,
    by decide,
    (make_request_retry_contract cfgDefault
        [HttpOutcome.timeout, HttpOutcome.status 500,
          HttpOutcome.clientError]).2.2 (by decide)⟩

/-! ## Claim theorems: polling scheduler -/

lemma cycleStep_processed (enum : List String → List String) (cfg : Config)
    (fetch : String → Except String (List Trade))
    (acc : DetectorState × ℕ × List String) (symbol : String) :
    (cycleStep enum cfg fetch acc symbol).2.2 = acc.2.2 ++ [symbol] := by
  unfold cycleStep
  cases fetch symbol with
  | error e => rfl
  | ok trades =>
    by_cases h : trades = [] <;> simp [h]

lemma foldl_cycle_processed (enum : List String → List String) (cfg : Config)
    (fetch : String → Except String (List Trade)) :
    ∀ (l : List String) (acc : DetectorState × ℕ × List String),
      ((l.foldl (cycleStep enum cfg fetch) acc).2.2) = acc.2.2 ++ l := by
  intro l
  induction l with
  | nil => intro acc; simp
  | cons s ss ih =>
    intro acc
    rw [List.foldl_cons, ih, cycleStep_processed]
    simp

/-- C9 (confirmed): within one polling cycle, an error raised while
fetching or detecting for one symbol (modelled by `fetch` returning
`Except.error`) is caught by the per-symbol `try/except` and processing
continues: for every symbol list and every pattern of per-symbol
failures, the list of symbols actually processed is the whole
configured list, in order — the cycle always completes. -/
theorem check_whale_transactions_isolation (enum : List String → List String)
    (cfg : Config) (st0 : DetectorState)
    (fetch : String → Except String (List Trade)) :
    (checkWhaleTransactions enum cfg st0 fetch).2.2 = cfg.MONITORED_SYMBOLS := by
  unfold checkWhaleTransactions
  rw [foldl_cycle_processed]
  simp

